import Mathlib

/-!
Verification of the filtering-and-aggregation pipeline of `src/app.py`, a
single-file Streamlit dashboard.  The dataset is modelled as a list of rows;
a row is an association list from column name to an optional cell value,
`none` standing for the pandas missing marker (NaN / NaT / None).  Each
definition below shallowly embeds the corresponding fragment of the source:
the sidebar filter pipeline (lines 89-133), the header normalization
(line 43), datetime inference and coercion (lines 21-33 and 53-55), and the
grouped-summary aggregation (lines 195-200 and 264-267).
-/

namespace Dashboard

/-- A cell value: a number (pandas numeric dtype, modelled as a rational),
a text value, or a timestamp (seconds since the epoch, as an integer). -/
inductive Value
  | num (q : ℚ)
  | str (s : String)
  | date (t : Int)
deriving DecidableEq

/-- A cell is a value or the pandas missing marker (NaN / NaT / None). -/
abbrev Cell := Option Value

/-- A row maps column names to cells (association list).  A column absent
from the list behaves as missing. -/
abbrev Row := List (String × Cell)

/-- Column access, as `filtered[c]` for one row. -/
def rowGet (r : Row) (c : String) : Cell :=
  match r.lookup c with
  | some cell => cell
  | none => none

/-- String form of a cell, as produced by pandas `astype(str)`: a missing
cell renders as "nan"; numeric and date rendering is abstracted by
`toString` (the concrete spelling of numbers is irrelevant to the claims). -/
def cellStr : Cell → String
  | none => "nan"
  | some (Value.num q) => toString q
  | some (Value.str s) => s
  | some (Value.date t) => toString t

/-- Does `needle` occur at the start of `hay` (character lists)? -/
def charsStartsWith : List Char → List Char → Bool
  | [], _ => true
  | _ :: _, [] => false
  | a :: as, b :: bs => a == b && charsStartsWith as bs

/-- Does `needle` occur contiguously anywhere inside `hay`? -/
def charsContains (needle : List Char) : List Char → Bool
  | [] => charsStartsWith needle []
  | b :: bs => charsStartsWith needle (b :: bs) || charsContains needle bs

/-- Case-insensitive substring test, as `Series.str.contains(term, case=False)`
for a literal (regex-metacharacter-free) search term.  Lower-casing is done
character by character. -/
def containsCI (hay term : String) : Bool :=
  charsContains (term.data.map Char.toLower) (hay.data.map Char.toLower)

/-- Lexicographic comparison of character lists (Python string order). -/
def charsLE : List Char → List Char → Bool
  | [], _ => true
  | _ :: _, [] => false
  | a :: as, b :: bs => if a = b then charsLE as bs else decide (a < b)

/-- Lexicographic string order, as used by Python's `sorted`. -/
def strLE (a b : String) : Bool :=
  charsLE a.data b.data

/-- Insert into a sorted list (helper for the stable insertion sort). -/
def insertLE {α : Type} (le : α → α → Bool) (a : α) : List α → List α
  | [] => [a]
  | b :: bs => if le a b then a :: b :: bs else b :: insertLE le a bs

/-- Stable insertion sort, modelling `sorted(...)` and pandas' sorted
group keys. -/
def sortLE {α : Type} (le : α → α → Bool) : List α → List α
  | [] => []
  | a :: l => insertLE le a (sortLE le l)

/-! ## Header normalization (line 43)

The source reads `df.columns = [str(c).strip() for c in df.columns]`:
the only normalization applied to a header is trimming surrounding
whitespace.  There is no alias table in this variant. -/

/-- Strip leading and trailing whitespace from a character list
(Python `str.strip()` over the characters of the string). -/
def trimChars (l : List Char) : List Char :=
  ((l.dropWhile Char.isWhitespace).reverse.dropWhile Char.isWhitespace).reverse

/-- Header normalization as performed by line 43: trim whitespace only. -/
def normalizeHeader (c : String) : String :=
  String.mk (trimChars c.data)

/-- Modelled from the spec's words ("lower-case the header, strip every
character that is not a lowercase letter or digit"): the normalization the
claim asserts the code performs.  Used only to compare against
`normalizeHeader`. -/
def specNormalize (s : String) : String :=
  String.mk ((s.data.map Char.toLower).filter (fun ch => ch.isLower || ch.isDigit))

/-! ## Filter pipeline (lines 89-133) -/

/-- Non-missing numeric values of column `c`, in row order
(`filtered[c].dropna()` for a numeric column). -/
def colNonMissingNums (rows : List Row) (c : String) : List ℚ :=
  rows.filterMap (fun r =>
    match rowGet r c with
    | some (Value.num q) => some q
    | _ => none)

/-- Non-missing date values of column `c`, in row order
(`filtered[date_col].dropna()`). -/
def colNonMissingDates (rows : List Row) (c : String) : List Int :=
  rows.filterMap (fun r =>
    match rowGet r c with
    | some (Value.date t) => some t
    | _ => none)

/-- Data-derived range of a numeric column over the current rows:
`none` when the column has no non-missing value, otherwise
`(col.min(), col.max())` (lines 102-105). -/
def colRange (rows : List Row) (c : String) : Option (ℚ × ℚ) :=
  match colNonMissingNums rows c with
  | [] => none
  | v :: vs => some (vs.foldl min v, vs.foldl max v)

/-- The option list of one categorical multiselect (line 93):
`sorted(filtered[c].dropna().astype(str).unique().tolist())`. -/
def availableValues (rows : List Row) (c : String) : List String :=
  sortLE strLE ((rows.filterMap (fun r =>
    (rowGet r c).map (fun v => cellStr (some v)))).dedup)

/-- One categorical filter (lines 96-97): with a non-empty selection keep
the rows whose stringified cell is a selected value; an empty selection
applies no filter. -/
def applyCatFilter (c : String) (sel : List String) (rows : List Row) : List Row :=
  if sel = [] then rows
  else rows.filter (fun r => decide (cellStr (rowGet r c) ∈ sel))

/-- The categorical filter loop (lines 92-97), one entry per picked column. -/
def applyCatFilters : List (String × List String) → List Row → List Row
  | [], rows => rows
  | (c, sel) :: rest, rows => applyCatFilters rest (applyCatFilter c sel rows)

/-- Row predicate of one numeric range filter (line 111):
`(filtered[c] >= r[0]) & (filtered[c] <= r[1])`; a missing value compares
false on both sides. -/
def passesNum (c : String) (lo hi : ℚ) (r : Row) : Bool :=
  match rowGet r c with
  | some (Value.num q) => decide (lo ≤ q ∧ q ≤ hi)
  | _ => false

/-- One numeric range filter (lines 101-111): skipped when the column has
no non-missing value (line 103) or its min equals its max (line 106);
otherwise keep the rows whose value lies in the chosen inclusive range. -/
def applyNumFilter (c : String) (lo hi : ℚ) (rows : List Row) : List Row :=
  match colRange rows c with
  | none => rows
  | some (mn, mx) => if mn = mx then rows else rows.filter (passesNum c lo hi)

/-- The numeric filter loop (lines 100-111), one entry per picked column,
carrying the slider range chosen for it. -/
def applyNumFilters : List (String × ℚ × ℚ) → List Row → List Row
  | [], rows => rows
  | (c, lo, hi) :: rest, rows => applyNumFilters rest (applyNumFilter c lo hi rows)

/-- Row predicate of the date filter (line 127). -/
def passesDate (c : String) (lo hi : Int) (r : Row) : Bool :=
  match rowGet r c with
  | some (Value.date t) => decide (lo ≤ t ∧ t ≤ hi)
  | _ => false

/-- The date range filter (lines 113-127): given a chosen column and picked
start and end days, skipped when the column has no non-missing value;
otherwise the filter interval runs from the start of the start day to
`end + 1 day - 1 second` (line 126).  Days are modelled as day numbers,
timestamps as seconds. -/
def applyDateFilter : Option (String × Int × Int) → List Row → List Row
  | none, rows => rows
  | some (c, startDay, endDay), rows =>
    match colNonMissingDates rows c with
    | [] => rows
    | _ :: _ =>
      rows.filter (passesDate c (startDay * 86400) (endDay * 86400 + 86400 - 1))

/-- Does a row match the global search (lines 130-132)?  The whole frame is
first stringified (`filtered.astype(str)`), so every cell participates via
its string form, a missing cell as "nan". -/
def rowMatches (term : String) (r : Row) : Bool :=
  r.any (fun p => containsCI (cellStr p.2) term)

/-- The global search filter (lines 129-133): an empty (pre-stripped) term
applies no filter. -/
def applySearch (term : String) (rows : List Row) : List Row :=
  if term = "" then rows else rows.filter (rowMatches term)

/-- The user-chosen predicate parameters of one recomputation pass. -/
structure FilterParams where
  catSelections : List (String × List String)
  numRanges : List (String × ℚ × ℚ)
  dateSel : Option (String × Int × Int)
  search : String

/-- The whole filter pipeline (lines 89-133), in source order: categorical
filters, then numeric ranges, then the date range, then the global search. -/
def applyFilters (p : FilterParams) (df : List Row) : List Row :=
  applySearch p.search
    (applyDateFilter p.dateSel
      (applyNumFilters p.numRanges
        (applyCatFilters p.catSelections df)))

/-! ## Program state (line 89)

`filtered = df.copy()` starts each pass from a fresh copy of the loaded
dataset; every later step rebinds `filtered` to a new frame (pandas boolean
indexing returns new objects) and never writes to `df`. -/

/-- The two module-level frames of the program. -/
structure Store where
  df : List Row
  filtered : List Row

/-- Line 89: `filtered = df.copy()`. -/
def stepCopy (s : Store) : Store :=
  { s with filtered := s.df }

/-- Lines 92-97 rebinding `filtered`. -/
def stepCats (ps : List (String × List String)) (s : Store) : Store :=
  { s with filtered := applyCatFilters ps s.filtered }

/-- Lines 100-111 rebinding `filtered`. -/
def stepNums (ps : List (String × ℚ × ℚ)) (s : Store) : Store :=
  { s with filtered := applyNumFilters ps s.filtered }

/-- Lines 113-127 rebinding `filtered`. -/
def stepDate (sel : Option (String × Int × Int)) (s : Store) : Store :=
  { s with filtered := applyDateFilter sel s.filtered }

/-- Lines 129-133 rebinding `filtered`. -/
def stepSearch (term : String) (s : Store) : Store :=
  { s with filtered := applySearch term s.filtered }

/-- The statements of lines 89-133 run in order over the store. -/
def filterPipeline (p : FilterParams) (s : Store) : Store :=
  stepSearch p.search
    (stepDate p.dateSel
      (stepNums p.numRanges
        (stepCats p.catSelections
          (stepCopy s))))

/-! ## Datetime inference and coercion (lines 21-33, 53-55)

The pandas date parser is external; it is abstracted as a parameter
(`parses` for the success test, `parse` for the parsed timestamp). -/

/-- The pandas dtype of a column, as far as `is_datetime_col` inspects it. -/
inductive Dtype
  | datetime64
  | object
  | number
deriving DecidableEq

/-- A column as a typed series: its dtype and its cells. -/
structure PColumn where
  dtype : Dtype
  cells : List Cell

/-- Line 28: `s.dropna().astype(str).head(50)` — the stringified first 50
non-missing values of the column. -/
def dtSample (col : PColumn) : List String :=
  ((col.cells.filterMap id).map (fun v => cellStr (some v))).take 50

/-- Lines 24-33, `is_datetime_col`: a datetime64 column is temporal; an
object column is inferred temporal when its sample is non-empty and at
least 60% of it parses (`parsed.notna().mean() >= 0.6`, rendered as
`3 * len <= 5 * parsedCount`); any other dtype (line 33) is not. -/
def is_datetime_col (parses : String → Bool) (col : PColumn) : Bool :=
  match col.dtype with
  | Dtype.datetime64 => true
  | Dtype.object =>
    if dtSample col = [] then false
    else decide (3 * (dtSample col).length ≤ 5 * ((dtSample col).filter parses).length)
  | Dtype.number => false

/-- Modelled from the claim's words: "a column not already of temporal type
is inferred to be temporal if and only if, among its first 50 non-missing
values, at least 60% parse successfully as dates" — the dtype-blind rule,
to be compared with `is_datetime_col`. -/
def specInferredTemporal (parses : String → Bool) (col : PColumn) : Bool :=
  decide (3 * (dtSample col).length ≤ 5 * ((dtSample col).filter parses).length)

/-- Lines 21-22, `to_datetime_safe` with `errors="coerce"`: each cell is
parsed; an unparseable or already-missing cell becomes missing (NaT),
a parseable one a date. -/
def to_datetime_safe (parse : String → Option Int) (cells : List Cell) : List Cell :=
  cells.map (fun cell =>
    match cell with
    | none => none
    | some v =>
      match parse (cellStr (some v)) with
      | some t => some (Value.date t)
      | none => none)

/-- Is a cell a date or missing (the only shapes coercion can produce)? -/
def isDateCell : Cell → Bool
  | none => true
  | some (Value.date _) => true
  | some _ => false

/-! ## Aggregation (lines 195-200, 264-267)

`filtered.groupby(g, dropna=False)` groups by the group column with missing
values kept as one explicit group; group keys come out sorted, the missing
key last.  `.size()` counts rows per group; `.agg("mean")` averages the
metric's non-missing values (NaN when the group has none). -/

/-- Order on group keys: ascending values, the missing key last (pandas
`groupby(sort=True, dropna=False)`); cross-type comparisons never arise in
a homogeneous column and are fixed arbitrarily. -/
def valLE : Value → Value → Bool
  | Value.num a, Value.num b => decide (a ≤ b)
  | Value.str a, Value.str b => strLE a b
  | Value.date a, Value.date b => decide (a ≤ b)
  | Value.num _, _ => true
  | Value.str _, Value.num _ => false
  | Value.str _, Value.date _ => true
  | Value.date _, _ => false

/-- Key order lifted to cells: missing sorts last. -/
def keyLE : Cell → Cell → Bool
  | none, none => true
  | none, some _ => false
  | some _, none => true
  | some a, some b => valLE a b

/-- The distinct group keys of the aggregation result, sorted, missing
last. -/
def groupKeys (rows : List Row) (g : String) : List Cell :=
  sortLE keyLE ((rows.map (fun r => rowGet r g)).dedup)

/-- The groups: each distinct key with the rows (in source order) whose
group cell equals it; all missing cells fall into the single `none` key. -/
def groupRows (rows : List Row) (g : String) : List (Cell × List Row) :=
  (groupKeys rows g).map (fun k => (k, rows.filter (fun r => decide (rowGet r g = k))))

/-- Lines 196 and 265: `groupby(g, dropna=False).size()` — per-group row
counts; the metric column plays no part. -/
def summaryCount (rows : List Row) (g : String) : List (Cell × Nat) :=
  (groupRows rows g).map (fun p => (p.1, p.2.length))

/-- Lines 199 and 267: `groupby(g, dropna=False)[m].agg(red)` — the reducer
applied to each group's non-missing metric values. -/
def summaryAgg (rows : List Row) (g m : String) (red : List ℚ → Option ℚ) :
    List (Cell × Option ℚ) :=
  (groupRows rows g).map (fun p => (p.1, red (colNonMissingNums p.2 m)))

/-- The "mean" reducer: NaN (none) on an empty value list, else the
average. -/
def meanReducer (vs : List ℚ) : Option ℚ :=
  match vs with
  | [] => none
  | _ :: _ => some (vs.sum / (vs.length : ℚ))

/-- Modelled from the spec's words for the free-text predicate ("row passes
if the case-insensitive search term is a substring of the string form of
any column's value in that row; missing values never match"): the filter
the claim describes, to be compared with `applySearch`. -/
def specSearch (term : String) (rows : List Row) : List Row :=
  if term = "" then rows
  else rows.filter (fun r => r.any (fun p =>
    match p.2 with
    | none => false
    | some v => containsCI (cellStr (some v)) term))

/-! ## Concrete datasets used by counterexamples and witnesses -/

/-- A department column with one present and one missing value. -/
def c2row1 : Row := [("Dept", some (Value.str "Math"))]

/-- A row whose department is missing. -/
def c2row2 : Row := [("Dept", (none : Cell))]

/-- Two-row dataset for the categorical-filter counterexample. -/
def c2df : List Row := [c2row1, c2row2]

/-- Dataset with no missing department, for the categorical witness. -/
def w2df : List Row :=
  [[("Dept", some (Value.str "Sci"))], [("Dept", some (Value.str "Art"))]]

/-- Score 1. -/
def c3row1 : Row := [("Score", some (Value.num 1))]

/-- Score 2. -/
def c3row2 : Row := [("Score", some (Value.num 2))]

/-- Missing score. -/
def c3row3 : Row := [("Score", (none : Cell))]

/-- Three-row dataset whose Score column spans [1, 2] with one missing. -/
def c3df : List Row := [c3row1, c3row2, c3row3]

/-- Row with numeric value 0 and date 0. -/
def w3r1 : Row := [("S", some (Value.num 0)), ("D", some (Value.date 0))]

/-- Row with numeric value 5 and date 200000. -/
def w3r2 : Row := [("S", some (Value.num 5)), ("D", some (Value.date 200000))]

/-- Row missing both columns. -/
def w3rm : Row := [("S", (none : Cell)), ("D", (none : Cell))]

/-- Dataset for the range-filter-semantics witness. -/
def w3df : List Row := [w3r1, w3r2, w3rm]

/-- One row whose only cell is missing. -/
def c4df : List Row := [[("Note", (none : Cell))]]

/-- One row with a text cell, for the search witness. -/
def w4row : Row := [("Name", some (Value.str "Mat"))]

/-- Dataset for the search witness. -/
def w4df : List Row := [w4row]

/-- Group A, metric 10. -/
def c6r1 : Row := [("G", some (Value.str "A")), ("M", some (Value.num 10))]

/-- Group A, metric 20. -/
def c6r2 : Row := [("G", some (Value.str "A")), ("M", some (Value.num 20))]

/-- Group B, metric 5. -/
def c6r3 : Row := [("G", some (Value.str "B")), ("M", some (Value.num 5))]

/-- The dataset of the aggregation claim: groups [A, A, B], metrics
[10, 20, 5]. -/
def c6df : List Row := [c6r1, c6r2, c6r3]

/-- The same groups with different metric values, to show the count
aggregation ignores the metric column. -/
def c6dfBig : List Row :=
  [[("G", some (Value.str "A")), ("M", some (Value.num 100))],
   [("G", some (Value.str "A")), ("M", some (Value.num 200))],
   [("G", some (Value.str "B")), ("M", some (Value.num 500))]]

/-- Dataset with one missing and one present group value. -/
def w7df : List Row :=
  [[("G", (none : Cell)), ("M", some (Value.num 1))],
   [("G", some (Value.str "x")), ("M", some (Value.num 2))]]

/-- A date-parse success test that accepts every value, as pandas
`to_datetime` does for numeric epoch values. -/
def demoParses : String → Bool := fun _ => true

/-- A date parser that parses nothing, for the coercion witness. -/
def demoParse : String → Option Int := fun _ => none

/-- A numeric-dtype column all of whose values the abstract parser
accepts. -/
def c8numCol : PColumn := ⟨Dtype.number, [some (Value.num 1), some (Value.num 2)]⟩

/-- An object-dtype column with one text cell. -/
def c8objCol : PColumn := ⟨Dtype.object, [some (Value.str "x")]⟩

/-- Dataset whose X column is entirely missing. -/
def w10df : List Row := [[("X", (none : Cell)), ("Y", some (Value.num 3))]]

/-! ## General helper lemmas -/

theorem filter_all_eq {α : Type} {p : α → Bool} {l : List α}
    (h : ∀ a ∈ l, p a = true) : l.filter p = l := by
  induction l with
  | nil => rfl
  | cons a t ih =>
    have ha : p a = true := h a (by simp)
    have ht : t.filter p = t := ih (fun b hb => h b (by simp [hb]))
    simp [List.filter_cons, ha, ht]

theorem sublist_filter_pass {α : Type} {p : α → Bool} {l₁ l₂ : List α}
    (h : List.Sublist l₂ (l₁.filter p)) : ∀ a ∈ l₂, p a = true :=
  fun _ ha => (List.mem_filter.mp (h.subset ha)).2

theorem sublist_filterMap {α β : Type} {f : α → Option β} {l₁ l₂ : List α}
    (h : List.Sublist l₁ l₂) : List.Sublist (l₁.filterMap f) (l₂.filterMap f) := by
  induction h with
  | slnil => exact List.Sublist.refl _
  | cons b _ ih =>
    cases hfb : f b with
    | none => simpa [List.filterMap_cons, hfb] using ih
    | some c => simpa [List.filterMap_cons, hfb] using ih.cons c
  | cons₂ a _ ih =>
    cases hfa : f a with
    | none => simpa [List.filterMap_cons, hfa] using ih
    | some c => simpa [List.filterMap_cons, hfa] using ih.cons₂ c

theorem insertLE_perm {α : Type} (le : α → α → Bool) (a : α) :
    ∀ l : List α, List.Perm (insertLE le a l) (a :: l)
  | [] => List.Perm.refl _
  | b :: bs => by
    unfold insertLE
    split
    · exact List.Perm.refl _
    · exact ((insertLE_perm le a bs).cons b).trans (List.Perm.swap a b bs)

theorem sortLE_perm {α : Type} (le : α → α → Bool) :
    ∀ l : List α, List.Perm (sortLE le l) l
  | [] => List.Perm.refl _
  | a :: l => (insertLE_perm le a (sortLE le l)).trans ((sortLE_perm le l).cons a)

theorem mem_sortLE {α : Type} {le : α → α → Bool} {a : α} {l : List α} :
    a ∈ sortLE le l ↔ a ∈ l :=
  (sortLE_perm le l).mem_iff

theorem foldl_min_le_init : ∀ (l : List ℚ) (a : ℚ), List.foldl min a l ≤ a
  | [], a => le_refl a
  | b :: l, a => le_trans (foldl_min_le_init l (min a b)) (min_le_left a b)

theorem foldl_min_le_mem : ∀ (l : List ℚ) (a x : ℚ), x ∈ l → List.foldl min a l ≤ x
  | [], _, x, hx => absurd hx (List.not_mem_nil x)
  | b :: l, a, x, hx => by
    rcases List.mem_cons.mp hx with h | h
    · subst h
      exact le_trans (foldl_min_le_init l (min a x)) (min_le_right a x)
    · exact foldl_min_le_mem l (min a b) x h

theorem le_foldl_min : ∀ (l : List ℚ) (a m : ℚ), m ≤ a → (∀ x ∈ l, m ≤ x) →
    m ≤ List.foldl min a l
  | [], _, _, ha, _ => ha
  | b :: l, a, m, ha, h =>
    le_foldl_min l (min a b) m (le_min ha (h b (by simp))) (fun x hx => h x (by simp [hx]))

theorem foldl_max_ge_init : ∀ (l : List ℚ) (a : ℚ), a ≤ List.foldl max a l
  | [], a => le_refl a
  | b :: l, a => le_trans (le_max_left a b) (foldl_max_ge_init l (max a b))

theorem foldl_max_ge_mem : ∀ (l : List ℚ) (a x : ℚ), x ∈ l → x ≤ List.foldl max a l
  | [], _, x, hx => absurd hx (List.not_mem_nil x)
  | b :: l, a, x, hx => by
    rcases List.mem_cons.mp hx with h | h
    · subst h
      exact le_trans (le_max_right a x) (foldl_max_ge_init l (max a x))
    · exact foldl_max_ge_mem l (max a b) x h

theorem foldl_max_le : ∀ (l : List ℚ) (a m : ℚ), a ≤ m → (∀ x ∈ l, x ≤ m) →
    List.foldl max a l ≤ m
  | [], _, _, ha, _ => ha
  | b :: l, a, m, ha, h =>
    foldl_max_le l (max a b) m (max_le ha (h b (by simp))) (fun x hx => h x (by simp [hx]))

/-! ## Facts about the data-derived numeric range -/

theorem colRange_none_iff {rows : List Row} {c : String} :
    colRange rows c = none ↔ colNonMissingNums rows c = [] := by
  unfold colRange
  cases colNonMissingNums rows c <;> simp

theorem colRange_bounds {rows : List Row} {c : String} {mn mx : ℚ}
    (h : colRange rows c = some (mn, mx)) :
    ∀ x ∈ colNonMissingNums rows c, mn ≤ x ∧ x ≤ mx := by
  intro x hx
  rcases hl : colNonMissingNums rows c with _ | ⟨v, vs⟩
  · rw [hl] at hx
    cases hx
  · have h2 : (some (vs.foldl min v, vs.foldl max v) : Option (ℚ × ℚ)) = some (mn, mx) := by
      rw [← h]
      unfold colRange
      rw [hl]
    have h3 := Option.some.inj h2
    have hmn : vs.foldl min v = mn := congrArg Prod.fst h3
    have hmx : vs.foldl max v = mx := congrArg Prod.snd h3
    rw [hl] at hx
    rcases List.mem_cons.mp hx with hv | hvs
    · subst hv
      exact ⟨hmn ▸ foldl_min_le_init vs x, hmx ▸ foldl_max_ge_init vs x⟩
    · exact ⟨hmn ▸ foldl_min_le_mem vs v x hvs, hmx ▸ foldl_max_ge_mem vs v x hvs⟩

theorem colRange_const {rows : List Row} {c : String} {m : ℚ}
    (h : ∀ x ∈ colNonMissingNums rows c, x = m) :
    colRange rows c = none ∨ colRange rows c = some (m, m) := by
  rcases hl : colNonMissingNums rows c with _ | ⟨v, vs⟩
  · left
    exact colRange_none_iff.mpr hl
  · right
    have hv : v = m := h v (by rw [hl]; simp)
    have hvs : ∀ x ∈ vs, x = m := fun x hx => h x (by rw [hl]; simp [hx])
    have hmn : vs.foldl min v = m := by
      refine le_antisymm (le_trans (foldl_min_le_init vs v) (le_of_eq hv)) ?_
      exact le_foldl_min vs v m (le_of_eq hv.symm) (fun x hx => le_of_eq (hvs x hx).symm)
    have hmx : vs.foldl max v = m := by
      refine le_antisymm ?_ (le_trans (le_of_eq hv.symm) (foldl_max_ge_init vs v))
      exact foldl_max_le vs v m (le_of_eq hv) (fun x hx => le_of_eq (hvs x hx))
    unfold colRange
    rw [hl]
    show some (vs.foldl min v, vs.foldl max v) = some (m, m)
    rw [hmn, hmx]

/-! ## Dispatch equations for the conditional filters -/

theorem applyNumFilter_of_none {rows : List Row} {c : String}
    (h : colRange rows c = none) (lo hi : ℚ) :
    applyNumFilter c lo hi rows = rows := by
  unfold applyNumFilter
  rw [h]

theorem applyNumFilter_of_eq {rows : List Row} {c : String} {m : ℚ}
    (h : colRange rows c = some (m, m)) (lo hi : ℚ) :
    applyNumFilter c lo hi rows = rows := by
  unfold applyNumFilter
  rw [h]
  show (if m = m then rows else rows.filter (passesNum c lo hi)) = rows
  rw [if_pos rfl]

theorem applyNumFilter_of_ne {rows : List Row} {c : String} {mn mx : ℚ}
    (h : colRange rows c = some (mn, mx)) (hne : mn ≠ mx) (lo hi : ℚ) :
    applyNumFilter c lo hi rows = rows.filter (passesNum c lo hi) := by
  unfold applyNumFilter
  rw [h]
  show (if mn = mx then rows else rows.filter (passesNum c lo hi)) = _
  rw [if_neg hne]

theorem applyDateFilter_none_col {rows : List Row} {c : String} {sd ed : Int}
    (h : colNonMissingDates rows c = []) :
    applyDateFilter (some (c, sd, ed)) rows = rows := by
  show (match colNonMissingDates rows c with
    | [] => rows
    | _ :: _ => rows.filter (passesDate c (sd * 86400) (ed * 86400 + 86400 - 1))) = rows
  rw [h]

theorem applyDateFilter_app {rows : List Row} {c : String} {sd ed : Int} {d : Int}
    {ds : List Int} (h : colNonMissingDates rows c = d :: ds) :
    applyDateFilter (some (c, sd, ed)) rows =
      rows.filter (passesDate c (sd * 86400) (ed * 86400 + 86400 - 1)) := by
  show (match colNonMissingDates rows c with
    | [] => rows
    | _ :: _ => rows.filter (passesDate c (sd * 86400) (ed * 86400 + 86400 - 1))) =
      rows.filter (passesDate c (sd * 86400) (ed * 86400 + 86400 - 1))
  rw [h]

/-! ## Each stage keeps its own output fixed and is a sublist -/

theorem applyCatFilter_sublist (c : String) (sel : List String) (rows : List Row) :
    List.Sublist (applyCatFilter c sel rows) rows := by
  unfold applyCatFilter
  split
  · exact List.Sublist.refl rows
  · exact List.filter_sublist rows

theorem applyCatFilters_sublist : ∀ (ps : List (String × List String)) (rows : List Row),
    List.Sublist (applyCatFilters ps rows) rows
  | [], rows => List.Sublist.refl rows
  | (c, sel) :: rest, rows =>
    (applyCatFilters_sublist rest (applyCatFilter c sel rows)).trans
      (applyCatFilter_sublist c sel rows)

theorem applyNumFilter_sublist (c : String) (lo hi : ℚ) (rows : List Row) :
    List.Sublist (applyNumFilter c lo hi rows) rows := by
  unfold applyNumFilter
  split
  · exact List.Sublist.refl rows
  · split
    · exact List.Sublist.refl rows
    · exact List.filter_sublist rows

theorem applyNumFilters_sublist : ∀ (ps : List (String × ℚ × ℚ)) (rows : List Row),
    List.Sublist (applyNumFilters ps rows) rows
  | [], rows => List.Sublist.refl rows
  | (c, lo, hi) :: rest, rows =>
    (applyNumFilters_sublist rest (applyNumFilter c lo hi rows)).trans
      (applyNumFilter_sublist c lo hi rows)

theorem applyDateFilter_sublist (sel : Option (String × Int × Int)) (rows : List Row) :
    List.Sublist (applyDateFilter sel rows) rows := by
  unfold applyDateFilter
  split
  · exact List.Sublist.refl rows
  · split
    · exact List.Sublist.refl rows
    · exact List.filter_sublist rows

theorem applySearch_sublist (term : String) (rows : List Row) :
    List.Sublist (applySearch term rows) rows := by
  unfold applySearch
  split
  · exact List.Sublist.refl rows
  · exact List.filter_sublist rows

theorem applyCatFilter_stable (c : String) (sel : List String) {l₁ l₂ : List Row}
    (h : List.Sublist l₂ (applyCatFilter c sel l₁)) : applyCatFilter c sel l₂ = l₂ := by
  unfold applyCatFilter at h ⊢
  by_cases hs : sel = []
  · rw [if_pos hs]
  · rw [if_neg hs] at h ⊢
    exact filter_all_eq (sublist_filter_pass h)

theorem applyCatFilters_stable : ∀ (ps : List (String × List String)) {l₁ l₂ : List Row},
    List.Sublist l₂ (applyCatFilters ps l₁) → applyCatFilters ps l₂ = l₂
  | [], _, _, _ => rfl
  | (c, sel) :: rest, l₁, l₂, h => by
    have hsub : List.Sublist l₂ (applyCatFilter c sel l₁) :=
      h.trans (applyCatFilters_sublist rest (applyCatFilter c sel l₁))
    have h1 : applyCatFilter c sel l₂ = l₂ := applyCatFilter_stable c sel hsub
    have h2 : applyCatFilters rest l₂ = l₂ := applyCatFilters_stable rest h
    show applyCatFilters rest (applyCatFilter c sel l₂) = l₂
    rw [h1, h2]

theorem applyNumFilter_stable (c : String) (lo hi : ℚ) {l₁ l₂ : List Row}
    (h : List.Sublist l₂ (applyNumFilter c lo hi l₁)) :
    applyNumFilter c lo hi l₂ = l₂ := by
  rcases hr : colRange l₁ c with _ | ⟨mn, mx⟩
  · have h2 : List.Sublist l₂ l₁ := by rwa [applyNumFilter_of_none hr] at h
    have hsub : List.Sublist (colNonMissingNums l₂ c) (colNonMissingNums l₁ c) :=
      sublist_filterMap h2
    rw [colRange_none_iff.mp hr] at hsub
    exact applyNumFilter_of_none (colRange_none_iff.mpr (List.sublist_nil.mp hsub)) lo hi
  · by_cases hmm : mn = mx
    · subst hmm
      have h2 : List.Sublist l₂ l₁ := by rwa [applyNumFilter_of_eq hr] at h
      have hall : ∀ x ∈ colNonMissingNums l₂ c, x = mn := by
        intro x hx
        have hx1 : x ∈ colNonMissingNums l₁ c := (sublist_filterMap h2).subset hx
        have hb := colRange_bounds hr x hx1
        exact le_antisymm hb.2 hb.1
      rcases colRange_const hall with hc | hc
      · exact applyNumFilter_of_none hc lo hi
      · exact applyNumFilter_of_eq hc lo hi
    · have h2 : List.Sublist l₂ (l₁.filter (passesNum c lo hi)) := by
        rwa [applyNumFilter_of_ne hr hmm] at h
      have hall := sublist_filter_pass h2
      rcases hr2 : colRange l₂ c with _ | ⟨mn2, mx2⟩
      · exact applyNumFilter_of_none hr2 lo hi
      · by_cases hm2 : mn2 = mx2
        · subst hm2
          exact applyNumFilter_of_eq hr2 lo hi
        · rw [applyNumFilter_of_ne hr2 hm2]
          exact filter_all_eq hall

theorem applyNumFilters_stable : ∀ (ps : List (String × ℚ × ℚ)) {l₁ l₂ : List Row},
    List.Sublist l₂ (applyNumFilters ps l₁) → applyNumFilters ps l₂ = l₂
  | [], _, _, _ => rfl
  | (c, lo, hi) :: rest, l₁, l₂, h => by
    have hsub : List.Sublist l₂ (applyNumFilter c lo hi l₁) :=
      h.trans (applyNumFilters_sublist rest (applyNumFilter c lo hi l₁))
    have h1 : applyNumFilter c lo hi l₂ = l₂ := applyNumFilter_stable c lo hi hsub
    have h2 : applyNumFilters rest l₂ = l₂ := applyNumFilters_stable rest h
    show applyNumFilters rest (applyNumFilter c lo hi l₂) = l₂
    rw [h1, h2]

theorem applyDateFilter_stable (sel : Option (String × Int × Int)) {l₁ l₂ : List Row}
    (h : List.Sublist l₂ (applyDateFilter sel l₁)) : applyDateFilter sel l₂ = l₂ := by
  rcases sel with _ | ⟨c, sd, ed⟩
  · rfl
  · rcases hd : colNonMissingDates l₁ c with _ | ⟨d, ds⟩
    · have h2 : List.Sublist l₂ l₁ := by rwa [applyDateFilter_none_col hd] at h
      have hsub : List.Sublist (colNonMissingDates l₂ c) (colNonMissingDates l₁ c) :=
        sublist_filterMap h2
      rw [hd] at hsub
      exact applyDateFilter_none_col (List.sublist_nil.mp hsub)
    · have h2 : List.Sublist l₂
          (l₁.filter (passesDate c (sd * 86400) (ed * 86400 + 86400 - 1))) := by
        rwa [applyDateFilter_app hd] at h
      have hall := sublist_filter_pass h2
      rcases hd2 : colNonMissingDates l₂ c with _ | ⟨e, es⟩
      · exact applyDateFilter_none_col hd2
      · rw [applyDateFilter_app hd2]
        exact filter_all_eq hall

theorem applySearch_stable (term : String) {l₁ l₂ : List Row}
    (h : List.Sublist l₂ (applySearch term l₁)) : applySearch term l₂ = l₂ := by
  unfold applySearch at h ⊢
  by_cases ht : term = ""
  · rw [if_pos ht]
  · rw [if_neg ht] at h ⊢
    exact filter_all_eq (sublist_filter_pass h)

theorem applyFilters_sublist (p : FilterParams) (df : List Row) :
    List.Sublist (applyFilters p df) df :=
  (((applySearch_sublist p.search _).trans
      (applyDateFilter_sublist p.dateSel _)).trans
        (applyNumFilters_sublist p.numRanges _)).trans
          (applyCatFilters_sublist p.catSelections df)

theorem applyFilters_stable (p : FilterParams) {l₁ l₂ : List Row}
    (h : List.Sublist l₂ (applyFilters p l₁)) : applyFilters p l₂ = l₂ := by
  have hC : List.Sublist l₂
      (applyDateFilter p.dateSel
        (applyNumFilters p.numRanges (applyCatFilters p.catSelections l₁))) :=
    h.trans (applySearch_sublist p.search _)
  have hB : List.Sublist l₂
      (applyNumFilters p.numRanges (applyCatFilters p.catSelections l₁)) :=
    hC.trans (applyDateFilter_sublist p.dateSel _)
  have hA : List.Sublist l₂ (applyCatFilters p.catSelections l₁) :=
    hB.trans (applyNumFilters_sublist p.numRanges _)
  have e1 := applyCatFilters_stable p.catSelections hA
  have e2 := applyNumFilters_stable p.numRanges hB
  have e3 := applyDateFilter_stable p.dateSel hC
  have e4 := applySearch_stable p.search h
  show applySearch p.search
      (applyDateFilter p.dateSel
        (applyNumFilters p.numRanges (applyCatFilters p.catSelections l₂))) = l₂
  rw [e1, e2, e3, e4]

/-! ## Claim C1: header normalization -/

/-- Claim C1, counterexample: the spec-stated normalization would identify
"GPA" and "gpa", but the code's normalization (line 43, whitespace trim
only) keeps them distinct, so the four spellings do not resolve to one
field. -/
theorem schema_normalization_counterexample :
    specNormalize "GPA" = specNormalize "gpa"
    ∧ normalizeHeader "GPA" ≠ normalizeHeader "gpa"
    ∧ normalizeHeader " G.P.A. " ≠ normalizeHeader "gpa"
    ∧ normalizeHeader "GradePointAverage" ≠ normalizeHeader "gpa" := by
  refine ⟨by decide, by decide, by decide, by decide⟩

/-- Claim C1, amended: header normalization in this program only trims
surrounding whitespace; whitespace variants of a header coincide, but
differently cased or punctuated spellings stay distinct and no alias table
exists. -/
theorem schema_normalization_trim_only :
    normalizeHeader " GPA " = normalizeHeader "GPA"
    ∧ normalizeHeader "gpa" ≠ normalizeHeader "GPA"
    ∧ normalizeHeader " G.P.A. " ≠ normalizeHeader "GPA"
    ∧ normalizeHeader "GradePointAverage" ≠ normalizeHeader "GPA" := by
  refine ⟨by decide, by decide, by decide, by decide⟩

/-! ## Claim C2: empty categorical selection vs full selection -/

/-- Claim C2, counterexample: on a column with a missing value, the empty
selection keeps both rows while selecting every available value drops the
missing-valued row (its stringified cell "nan" is not an offered option). -/
theorem categorical_empty_vs_full_counterexample :
    applyCatFilter "Dept" [] c2df ≠
      applyCatFilter "Dept" (availableValues c2df "Dept") c2df := by
  decide

/-- Claim C2, amended: an empty selection excludes no rows, and it agrees
with selecting all available values whenever every row's value in the
column is non-missing. -/
theorem categorical_empty_eq_full (rows : List Row) (c : String)
    (h : ∀ r ∈ rows, rowGet r c ≠ none) :
    applyCatFilter c [] rows = rows
    ∧ applyCatFilter c (availableValues rows c) rows = rows := by
  constructor
  · unfold applyCatFilter
    rw [if_pos rfl]
  · by_cases hv : availableValues rows c = []
    · unfold applyCatFilter
      rw [if_pos hv]
    · unfold applyCatFilter
      rw [if_neg hv]
      refine filter_all_eq ?_
      intro r hr
      rcases hg : rowGet r c with _ | v
      · exact absurd hg (h r hr)
      · have hmem : cellStr (some v) ∈ availableValues rows c := by
          unfold availableValues
          refine mem_sortLE.mpr (List.mem_dedup.mpr ?_)
          exact List.mem_filterMap.mpr ⟨r, hr, by rw [hg]; rfl⟩
        exact decide_eq_true hmem

/-- Claim C2, witness: on a dataset with no missing department both
selections agree. -/
theorem categorical_empty_eq_full_witness :
    applyCatFilter "Dept" [] w2df = w2df
    ∧ applyCatFilter "Dept" (availableValues w2df "Dept") w2df = w2df :=
  categorical_empty_eq_full w2df "Dept" (by decide)

/-! ## Claim C3: range predicates and missing values -/

/-- Claim C3, counterexample: with the Score column spanning exactly
[1, 2], the range (1, 2) is the data-derived default, yet the filter still
drops the row whose Score is missing — the default full range does
exclude. -/
theorem range_default_excludes_missing :
    colRange c3df "Score" = some (1, 2)
    ∧ applyNumFilter "Score" 1 2 c3df = [c3row1, c3row2]
    ∧ c3df = [c3row1, c3row2, c3row3] := by
  refine ⟨by decide, by decide, rfl⟩

/-- Claim C3, amended: when a numeric range filter is applied (column has
non-missing values and min is not max), a row with value q passes iff
q lies in the inclusive range, and a row whose value is missing always
fails, even at the default full range; likewise a date filter (applied
when the column has a non-missing date) keeps a row with timestamp t iff
t lies between the start of the start day and the last second of the end
day. -/
theorem range_filter_semantics
    (c : String) (lo hi mn mx : ℚ) (rows : List Row)
    (h1 : colRange rows c = some (mn, mx)) (h2 : mn ≠ mx)
    (rn : Row) (q : ℚ) (hq : rowGet rn c = some (Value.num q))
    (rm : Row) (hm : rowGet rm c = none)
    (dc : String) (dlo dhi : Int) (drows : List Row)
    (dd : Int) (dds : List Int) (hd : colNonMissingDates drows dc = dd :: dds)
    (rd : Row) (t : Int) (ht : rowGet rd dc = some (Value.date t)) :
    (rn ∈ applyNumFilter c lo hi rows ↔ rn ∈ rows ∧ lo ≤ q ∧ q ≤ hi)
    ∧ rm ∉ applyNumFilter c lo hi rows
    ∧ (rd ∈ applyDateFilter (some (dc, dlo, dhi)) drows ↔
        rd ∈ drows ∧ dlo * 86400 ≤ t ∧ t ≤ dhi * 86400 + 86400 - 1) := by
  rw [applyNumFilter_of_ne h1 h2, applyDateFilter_app hd]
  refine ⟨?_, ?_, ?_⟩
  · rw [List.mem_filter]
    constructor
    · rintro ⟨ha, hb⟩
      refine ⟨ha, ?_⟩
      unfold passesNum at hb
      rw [hq] at hb
      exact of_decide_eq_true hb
    · rintro ⟨ha, hb⟩
      refine ⟨ha, ?_⟩
      unfold passesNum
      rw [hq]
      exact decide_eq_true hb
  · intro hmem
    have hb := (List.mem_filter.mp hmem).2
    unfold passesNum at hb
    rw [hm] at hb
    cases hb
  · rw [List.mem_filter]
    constructor
    · rintro ⟨ha, hb⟩
      refine ⟨ha, ?_⟩
      unfold passesDate at hb
      rw [ht] at hb
      exact of_decide_eq_true hb
    · rintro ⟨ha, hb⟩
      refine ⟨ha, ?_⟩
      unfold passesDate
      rw [ht]
      exact decide_eq_true hb

/-- Claim C3, witness: the amended range semantics at a concrete dataset,
range and rows. -/
theorem range_filter_semantics_witness :
    (w3r1 ∈ applyNumFilter "S" 0 3 w3df ↔ w3r1 ∈ w3df ∧ (0 : ℚ) ≤ 0 ∧ (0 : ℚ) ≤ 3)
    ∧ w3rm ∉ applyNumFilter "S" 0 3 w3df
    ∧ (w3r2 ∈ applyDateFilter (some ("D", 0, 1)) w3df ↔
        w3r2 ∈ w3df ∧ (0 : Int) * 86400 ≤ 200000
          ∧ (200000 : Int) ≤ 1 * 86400 + 86400 - 1) :=
  range_filter_semantics "S" 0 3 0 5 w3df (by decide) (by decide)
    w3r1 0 (by decide) w3rm (by decide)
    "D" 0 1 w3df 0 [200000] (by decide) w3r2 200000 (by decide)

/-! ## Claim C4: global search and missing values -/

/-- Claim C4, counterexample: the whole frame is stringified before
matching, so a row whose only cell is missing is kept by the search term
"nan" (it matches the stringified missing marker), while the claim's rule
(missing never matches) would drop it. -/
theorem search_missing_matches :
    applySearch "nan" c4df = c4df ∧ specSearch "nan" c4df = [] := by
  refine ⟨by decide, by decide⟩

/-- Claim C4, amended: a non-empty term keeps exactly the rows in which
the case-insensitive term occurs in the string form of some cell, where
missing cells participate through their stringified form "nan" and can
match; an empty term applies no filter. -/
theorem search_semantics (term : String) (rows : List Row) (r : Row)
    (h : term ≠ "") :
    (r ∈ applySearch term rows ↔ r ∈ rows ∧ rowMatches term r = true)
    ∧ applySearch "" rows = rows := by
  constructor
  · unfold applySearch
    rw [if_neg h]
    exact List.mem_filter
  · unfold applySearch
    rw [if_pos rfl]

/-- Claim C4, witness: the search semantics at a concrete term and row. -/
theorem search_semantics_witness :
    (w4row ∈ applySearch "ma" w4df ↔ w4row ∈ w4df ∧ rowMatches "ma" w4row = true)
    ∧ applySearch "" w4df = w4df :=
  search_semantics "ma" w4df w4row (by decide)

/-! ## Claim C5: order preservation and idempotence of the pipeline -/

/-- Claim C5: for every dataset and predicate parameter set, the filtered
view is a sublist of the source (rows keep their relative order), and
re-applying the same predicate set to the filtered view returns it
unchanged. -/
theorem filter_pipeline_order_idempotent (p : FilterParams) (df : List Row) :
    List.Sublist (applyFilters p df) df
    ∧ applyFilters p (applyFilters p df) = applyFilters p df :=
  ⟨applyFilters_sublist p df, applyFilters_stable p (List.Sublist.refl _)⟩

/-! ## Claim C6: aggregation on [A, A, B] with metrics [10, 20, 5] -/

/-- Claim C6: mean aggregation yields A ↦ 15, B ↦ 5; count aggregation
yields A ↦ 2, B ↦ 1; and count ignores the metric values entirely. -/
theorem aggregation_concrete :
    summaryAgg c6df "G" "M" meanReducer =
      [(some (Value.str "A"), some 15), (some (Value.str "B"), some 5)]
    ∧ summaryCount c6df "G" = [(some (Value.str "A"), 2), (some (Value.str "B"), 1)]
    ∧ summaryCount c6dfBig "G" = summaryCount c6df "G" := by
  refine ⟨?_, by decide, by decide⟩
  have hg : groupRows c6df "G" =
      [(some (Value.str "A"), [c6r1, c6r2]), (some (Value.str "B"), [c6r3])] := by
    decide
  unfold summaryAgg
  rw [hg, List.map_cons, List.map_cons, List.map_nil]
  rw [show colNonMissingNums [c6r1, c6r2] "M" = [10, 20] from by decide]
  rw [show colNonMissingNums [c6r3] "M" = [5] from by decide]
  rw [show meanReducer [(10 : ℚ), 20] = some 15 from by
    show some (List.sum [(10 : ℚ), 20] / ((List.length [(10 : ℚ), 20] : ℕ) : ℚ)) = some 15
    norm_num]
  rw [show meanReducer [(5 : ℚ)] = some 5 from by
    show some (List.sum [(5 : ℚ)] / ((List.length [(5 : ℚ)] : ℕ) : ℚ)) = some 5
    norm_num]

/-! ## Claim C7: missing group values form one explicit bucket -/

/-- Claim C7: whenever some row's group value is missing, the aggregation
result contains the missing-key bucket, holding exactly the number of such
rows, and the result's group keys are pairwise distinct (one bucket). -/
theorem aggregation_missing_bucket (rows : List Row) (g : String)
    (h : ∃ r, r ∈ rows ∧ rowGet r g = none) :
    ((none : Cell), rows.countP (fun r => decide (rowGet r g = none))) ∈ summaryCount rows g
    ∧ ((summaryCount rows g).map Prod.fst).Nodup := by
  constructor
  · obtain ⟨r, hr, hg⟩ := h
    have hk : (none : Cell) ∈ groupKeys rows g := by
      unfold groupKeys
      refine mem_sortLE.mpr (List.mem_dedup.mpr ?_)
      exact List.mem_map.mpr ⟨r, hr, hg⟩
    have he : summaryCount rows g = (groupKeys rows g).map
        (fun k => (k, (rows.filter (fun r => decide (rowGet r g = k))).length)) := by
      unfold summaryCount groupRows
      rw [List.map_map]
      rfl
    rw [he, List.countP_eq_length_filter]
    exact List.mem_map.mpr ⟨none, hk, rfl⟩
  · have he2 : (summaryCount rows g).map Prod.fst = groupKeys rows g := by
      unfold summaryCount groupRows
      rw [List.map_map, List.map_map]
      exact List.map_id _
    rw [he2]
    unfold groupKeys
    exact ((sortLE_perm keyLE _).symm.nodup (List.nodup_dedup _))

/-- Claim C7, witness: the missing bucket on a concrete two-row dataset. -/
theorem aggregation_missing_bucket_witness :
    ((none : Cell), w7df.countP (fun r => decide (rowGet r "G" = none))) ∈ summaryCount w7df "G"
    ∧ ((summaryCount w7df "G").map Prod.fst).Nodup :=
  aggregation_missing_bucket w7df "G"
    ⟨[("G", (none : Cell)), ("M", some (Value.num 1))], by decide⟩

/-! ## Claim C8: datetime inference and coercion -/

/-- Claim C8, counterexample: a numeric-dtype column every one of whose
values the parser accepts satisfies the claim's dtype-blind 60% rule, yet
the code never infers it temporal (line 33 returns False for non-object
dtypes), so the claimed "if and only if" fails. -/
theorem datetime_inference_counterexample :
    c8numCol.dtype ≠ Dtype.datetime64
    ∧ specInferredTemporal demoParses c8numCol = true
    ∧ is_datetime_col demoParses c8numCol = false := by
  refine ⟨by decide, rfl, rfl⟩

/-- Claim C8, amended: only object-dtype columns are candidates for
inference — for them the code infers temporal exactly when the sample of
(up to 50) stringified non-missing values is non-empty and at least 60% of
it parses; and temporal coercion preserves length and maps every cell to a
date or to missing, never failing. -/
theorem datetime_inference_semantics
    (parses : String → Bool) (col : PColumn) (h : col.dtype = Dtype.object)
    (parse : String → Option Int) (cells : List Cell) (x : Cell)
    (hx : x ∈ to_datetime_safe parse cells) :
    (is_datetime_col parses col = true ↔
      (dtSample col ≠ [] ∧ specInferredTemporal parses col = true))
    ∧ (to_datetime_safe parse cells).length = cells.length
    ∧ isDateCell x = true := by
  refine ⟨?_, List.length_map _ _, ?_⟩
  · unfold is_datetime_col
    rw [h]
    show (if dtSample col = [] then false
      else decide (3 * (dtSample col).length ≤ 5 * ((dtSample col).filter parses).length)) = true
        ↔ (dtSample col ≠ [] ∧ specInferredTemporal parses col = true)
    unfold specInferredTemporal
    by_cases hs : dtSample col = []
    · rw [if_pos hs]
      simp [hs]
    · rw [if_neg hs]
      simp [hs]
  · obtain ⟨c0, hc0, rfl⟩ := List.mem_map.mp hx
    cases c0 with
    | none => rfl
    | some v =>
      cases hp : parse (cellStr (some v)) with
      | none => simp [isDateCell, hp]
      | some t => simp [isDateCell, hp]

/-- Claim C8, witness: the amended inference rule and coercion behavior at
a concrete object column and parser. -/
theorem datetime_inference_semantics_witness :
    (is_datetime_col demoParses c8objCol = true ↔
      (dtSample c8objCol ≠ [] ∧ specInferredTemporal demoParses c8objCol = true))
    ∧ (to_datetime_safe demoParse [some (Value.str "x")]).length =
        [some (Value.str "x")].length
    ∧ isDateCell (none : Cell) = true :=
  datetime_inference_semantics demoParses c8objCol rfl demoParse
    [some (Value.str "x")] none (by decide)

/-! ## Claim C9: filtering never mutates the loaded dataset -/

/-- Claim C9: running the filter pipeline leaves the loaded frame `df`
untouched, produces the filtered view as a separate value computed from
`df`, and can be re-run on its own output with the identical result — the
original dataset stays available for re-filtering. -/
theorem filtering_non_destructive (p : FilterParams) (s : Store) :
    (filterPipeline p s).df = s.df
    ∧ (filterPipeline p s).filtered = applyFilters p s.df
    ∧ filterPipeline p (filterPipeline p s) = filterPipeline p s :=
  ⟨rfl, rfl, rfl⟩

/-! ## Claim C10: skip conditions of the numeric range filter -/

/-- Claim C10: when the chosen column over the surviving rows has no
non-missing value, or its minimum equals its maximum, the numeric range
filter excludes no rows at all — the output is the input, missing-valued
rows included. -/
theorem num_range_skip (c : String) (lo hi : ℚ) (rows : List Row)
    (h : colNonMissingNums rows c = [] ∨ ∃ m : ℚ, colRange rows c = some (m, m)) :
    applyNumFilter c lo hi rows = rows := by
  rcases h with h | ⟨m, h⟩
  · exact applyNumFilter_of_none (colRange_none_iff.mpr h) lo hi
  · exact applyNumFilter_of_eq h lo hi

/-- Claim C10, witness: the skip on a dataset whose X column is entirely
missing. -/
theorem num_range_skip_witness :
    applyNumFilter "X" 0 1 w10df = w10df :=
  num_range_skip "X" 0 1 w10df (Or.inl (by decide))

end Dashboard
